import Mathlib

/-!
A shallow embedding of the coin-record, CAT-info, unit-table and
spend-bundle-cost fragments of the chives light wallet, with theorems
checking the specification's statements about them.

Machine integers (`uint32`, `uint64`) are embedded as `Nat`; where a width
matters (serialization) the bound appears as an explicit validity
predicate. `bytes32` values are embedded as lists of byte values.
-/

/-- Big-endian byte encoding is built from a little-endian worklist:
`toBytesLE w n` is the `w` least-significant base-256 digits of `n`,
least significant first. -/
def toBytesLE : Nat → Nat → List Nat
  | 0, _ => []
  | w + 1, n => n % 256 :: toBytesLE w (n / 256)

/-- Value of a little-endian digit list. -/
def fromBytesLE : List Nat → Nat
  | [] => 0
  | b :: bs => b + 256 * fromBytesLE bs

/-- `w`-byte big-endian encoding of `n`, as used by the wire format. -/
def toBytesBE (w n : Nat) : List Nat := (toBytesLE w n).reverse

/-- Value of a big-endian digit list. -/
def fromBytesBE (l : List Nat) : Nat := fromBytesLE l.reverse

/-- Modelled from the spec: a Coin is identified by
(parent-coin-identifier, puzzle-hash, amount); the class itself lives in
chives/types/blockchain_format/coin.py, outside the staged sources. -/
structure Coin where
  parent_coin_info : List Nat
  puzzle_hash : List Nat
  amount : Nat
deriving DecidableEq, Repr

/-- Modelled from the spec: the CoinState triple
(coin, spent-height-or-absent, confirmed-height-or-absent) constructed by
`CoinRecord.coin_state`; the class itself lives in
chives/protocols/wallet_protocol.py, outside the staged sources. -/
structure CoinState where
  coin : Coin
  spent_height : Option Nat
  created_height : Option Nat
deriving DecidableEq, Repr

/-- The CoinRecord frozen dataclass of chives/types/coin_record.py:
coin, confirmed_block_index, spent_block_index, coinbase, timestamp.
The dataclass performs no validation of its field values. -/
structure CoinRecord where
  coin : Coin
  confirmed_block_index : Nat
  spent_block_index : Nat
  coinbase : Bool
  timestamp : Nat
deriving DecidableEq, Repr

/-- The `spent` property: `return self.spent_block_index > 0`. -/
def CoinRecord.spent (r : CoinRecord) : Bool :=
  decide (r.spent_block_index > 0)

/-- Serialization of a Coin: parent id, puzzle hash, then the amount as a
64-bit big-endian integer. -/
def serializeCoin (c : Coin) : List Nat :=
  c.parent_coin_info ++ c.puzzle_hash ++ toBytesBE 8 c.amount

/-- Modelled from the spec: `name(coin)` is a pure, deterministic function
of (parent id, puzzle hash, amount); the hash itself
(chives/types/blockchain_format/coin.py) is outside the staged sources, so
it is modelled by the deterministic serialization of the three fields
(collision resistance is not formalised). -/
def Coin.name (c : Coin) : List Nat := serializeCoin c

/-- The `name` property: `return self.coin.name()`. -/
def CoinRecord.name (r : CoinRecord) : List Nat := r.coin.name

/-- The `coin_state` property of chives/types/coin_record.py:
spent height is present exactly when `spent`; the confirmed height is
replaced by `None` when both `confirmed_block_index` and `timestamp`
are zero. -/
def CoinRecord.coin_state (r : CoinRecord) : CoinState :=
  let spent_h : Option Nat :=
    if r.spent then some r.spent_block_index else none
  let confirmed_height : Option Nat :=
    if r.confirmed_block_index = 0 ∧ r.timestamp = 0 then none
    else some r.confirmed_block_index
  ⟨r.coin, spent_h, confirmed_height⟩

/-- The ledger invariant stated by the spec: a nonzero spent height is at
least the confirmed height. -/
def CoinRecordInvariant (r : CoinRecord) : Prop :=
  r.spent_block_index ≠ 0 → r.confirmed_block_index ≤ r.spent_block_index

/-- Evaluating every accessor of a record and returning the record, the
shallow embedding of a sequence of accessor calls on a frozen dataclass. -/
def coinRecordAfterAccessors (r : CoinRecord) : CoinRecord :=
  let _ := r.spent
  let _ := r.name
  let _ := r.coin_state
  r

/-- An all-zero coin used as a concrete input. -/
def coin0 : Coin := ⟨List.replicate 32 0, List.replicate 32 0, 0⟩

/-- A concrete CoinRecord the Python constructor accepts whose nonzero
spent height lies below its confirmed height. -/
def badRecord : CoinRecord := ⟨coin0, 100, 1, false, 5⟩

/-- A concrete CoinRecord satisfying the ledger invariant. -/
def goodRecord : CoinRecord := ⟨coin0, 100, 150, false, 5⟩

/-- One-byte serialization of a boolean. -/
def serializeBool (b : Bool) : List Nat := [if b then 1 else 0]

/-- Modelled from the spec: the CoinRecord wire format (the streamable
machinery of chives/util/streamable.py is outside the staged sources)
serializes, in field order, the coin, two 32-bit heights
(confirmed_block_index, spent_block_index), a boolean (coinbase) and the
64-bit timestamp. -/
def serializeCoinRecord (r : CoinRecord) : List Nat :=
  serializeCoin r.coin
    ++ toBytesBE 4 r.confirmed_block_index
    ++ toBytesBE 4 r.spent_block_index
    ++ serializeBool r.coinbase
    ++ toBytesBE 8 r.timestamp

/-- Read a fixed number of bytes from the stream, failing when too few
remain. -/
def readBytes (w : Nat) (l : List Nat) : Option (List Nat × List Nat) :=
  if w ≤ l.length then some (l.take w, l.drop w) else none

/-- Read a one-byte boolean; anything other than 0 or 1 is rejected. -/
def readBool : List Nat → Option (Bool × List Nat)
  | 0 :: rest => some (false, rest)
  | 1 :: rest => some (true, rest)
  | _ => none

/-- Parse a Coin from the stream: 32-byte parent id, 32-byte puzzle hash,
64-bit amount. -/
def deserializeCoin (l : List Nat) : Option (Coin × List Nat) :=
  match readBytes 32 l with
  | none => none
  | some (parent, l1) =>
    match readBytes 32 l1 with
    | none => none
    | some (puzzle, l2) =>
      match readBytes 8 l2 with
      | none => none
      | some (amt, l3) => some (⟨parent, puzzle, fromBytesBE amt⟩, l3)

/-- Parse a full CoinRecord, requiring the stream to be consumed
entirely. -/
def deserializeCoinRecord (l : List Nat) : Option CoinRecord :=
  match deserializeCoin l with
  | none => none
  | some (c, l1) =>
    match readBytes 4 l1 with
    | none => none
    | some (confB, l2) =>
      match readBytes 4 l2 with
      | none => none
      | some (spentB, l3) =>
        match readBool l3 with
        | none => none
        | some (cb, l4) =>
          match readBytes 8 l4 with
          | none => none
          | some (tsB, l5) =>
            match l5 with
            | [] => some ⟨c, fromBytesBE confB, fromBytesBE spentB, cb, fromBytesBE tsB⟩
            | _ => none

/-- A well-formed 32-byte string. -/
def ValidBytes32 (l : List Nat) : Prop :=
  l.length = 32 ∧ ∀ b ∈ l, b < 256

/-- A Coin whose fields are in the ranges the Python sized types
(`bytes32`, `uint64`) enforce. -/
def ValidCoin (c : Coin) : Prop :=
  ValidBytes32 c.parent_coin_info ∧ ValidBytes32 c.puzzle_hash ∧
    c.amount < 256 ^ 8

/-- A CoinRecord whose fields are in the ranges the Python sized types
(`uint32`, `uint64`) enforce. -/
def ValidCoinRecord (r : CoinRecord) : Prop :=
  ValidCoin r.coin ∧ r.confirmed_block_index < 256 ^ 4 ∧
    r.spent_block_index < 256 ^ 4 ∧ r.timestamp < 256 ^ 8

instance (l : List Nat) : Decidable (ValidBytes32 l) := by
  unfold ValidBytes32; infer_instance

instance (c : Coin) : Decidable (ValidCoin c) := by
  unfold ValidCoin; infer_instance

instance (r : CoinRecord) : Decidable (ValidCoinRecord r) := by
  unfold ValidCoinRecord; infer_instance

/-- A concrete valid CoinRecord used to exercise serialization. -/
def r0 : CoinRecord :=
  ⟨⟨List.replicate 32 3, List.replicate 32 170, 1000⟩, 100, 150, true, 1234567890⟩

/-- Modelled from the spec: an opaque script program (the Program class of
chives/types/blockchain_format/program.py is outside the staged sources),
kept as its serialized bytes. -/
structure Program where
  code : List Nat
deriving DecidableEq, Repr

/-- Modelled from the spec: a LineageProof binds a coin to its parent by
the parent's coin name, inner puzzle hash and amount
(chives/wallet/lineage_proof.py is outside the staged sources). -/
structure LineageProof where
  parent_name : List Nat
  inner_puzzle_hash : List Nat
  amount : Nat
deriving DecidableEq, Repr

/-- The CATInfo frozen dataclass of chives/wallet/cat_wallet/cat_info.py:
`lineage_proofs` is a plain list of (coin name, optional LineageProof)
pairs, with no uniqueness constraint on the names. -/
structure CATInfo where
  limitations_program_hash : List Nat
  my_tail : Option Program
  lineage_proofs : List (List Nat × Option LineageProof)
deriving DecidableEq, Repr

/-- Linear scan of a lineage-proof list: the value paired with the first
occurrence of the name, or `none` when the name does not occur. -/
def lookupLineage : List (List Nat × Option LineageProof) → List Nat →
    Option (Option LineageProof)
  | [], _ => none
  | (k, v) :: rest, n => if k = n then some v else lookupLineage rest n

/-- A concrete LineageProof. -/
def lp0 : LineageProof := ⟨List.replicate 32 1, List.replicate 32 2, 3⟩

/-- A concrete CATInfo the Python constructor accepts in which the same
coin name occurs twice as a key, the second entry shadowed by the
first under linear scan. -/
def dupCATInfo : CATInfo :=
  ⟨List.replicate 32 0, none,
    [(List.replicate 32 7, none), (List.replicate 32 7, some lp0)]⟩

/-- A concrete CATInfo with duplicate-free keys. -/
def okCATInfo : CATInfo :=
  ⟨List.replicate 32 0, none, [(List.replicate 32 7, some lp0)]⟩

/-- Modelled from the spec: one (coin, puzzle reveal, solution) triple of
a spend bundle (chives/types/coin_spend.py is outside the staged
sources). -/
structure CoinSpend where
  coin : Coin
  puzzle_reveal : Program
  solution : Program
deriving DecidableEq, Repr

/-- Modelled from the spec: a SpendBundle is an ordered list of coin
spends plus one aggregated signature (chives/types/spend_bundle.py is
outside the staged sources). -/
structure SpendBundle where
  coin_spends : List CoinSpend
  aggregated_signature : List Nat
deriving DecidableEq, Repr

/-- Modelled from the spec: a block generator wrapping the program built
from a spend bundle (chives/types/generator_types.py is outside the
staged sources). -/
structure BlockGenerator where
  program : Program
deriving DecidableEq, Repr

/-- Modelled from the spec: an NPCResult is either an error or the list
of emitted conditions, plus the computed cost
(chives/consensus/cost_calculator.py is outside the staged sources). -/
structure NPCResult where
  error : Option Nat
  conds : List (List Nat)
  cost : Nat
deriving DecidableEq, Repr

/-- The cost_of_spend_bundle function of src/tests/clvm/benchmark_costs.py,
parameterised over its callees — simple_solution_generator,
get_name_puzzle_conditions and calculate_cost_of_program are outside the
staged sources and the spec requires them to be pure deterministic
functions, so they are passed as function arguments; it builds the
generator, resolves conditions in mempool mode under the infinite cost
budget, and computes the program cost. -/
def cost_of_spend_bundle
    (simple_solution_generator : SpendBundle → BlockGenerator)
    (get_name_puzzle_conditions : BlockGenerator → Nat → Nat → Bool → NPCResult)
    (calculate_cost_of_program : Program → NPCResult → Nat → Int)
    (INFINITE_COST COST_PER_BYTE : Nat)
    (spend_bundle : SpendBundle) : Int :=
  let program : BlockGenerator := simple_solution_generator spend_bundle
  let npc_result : NPCResult :=
    get_name_puzzle_conditions program INFINITE_COST COST_PER_BYTE true
  calculate_cost_of_program program.program npc_result COST_PER_BYTE

/-- A concrete generator builder. -/
def gen0 : SpendBundle → BlockGenerator := fun _ => ⟨⟨[]⟩⟩

/-- A concrete condition resolver. -/
def npc0 : BlockGenerator → Nat → Nat → Bool → NPCResult :=
  fun _ _ _ _ => ⟨none, [], 0⟩

/-- A concrete cost function. -/
def calc0 : Program → NPCResult → Nat → Int := fun _ _ _ => 0

/-- A concrete empty spend bundle. -/
def sb0 : SpendBundle := ⟨[], []⟩

/-- The units table of chives/cmds/units.py: display denomination to base
unit count, as an ordered association list mirroring the dict literal. -/
def units : List (String × Nat) :=
  [("chives", 10 ^ 8), ("mojo", 1), ("colouredcoin", 10 ^ 5)]

/-- Dictionary lookup in the units table. -/
def lookupUnit : List (String × Nat) → String → Option Nat
  | [], _ => none
  | (k, v) :: rest, s => if k = s then some v else lookupUnit rest s

/-- A little-endian encoding has as many bytes as requested. -/
theorem length_toBytesLE (w : Nat) : ∀ n, (toBytesLE w n).length = w := by
  induction w with
  | zero => intro n; rfl
  | succ w ih => intro n; simp [toBytesLE, ih]

/-- A big-endian encoding has as many bytes as requested. -/
theorem length_toBytesBE (w n : Nat) : (toBytesBE w n).length = w := by
  simp [toBytesBE, length_toBytesLE]

/-- Little-endian decoding inverts encoding for in-range values. -/
theorem fromBytesLE_toBytesLE (w : Nat) :
    ∀ n, n < 256 ^ w → fromBytesLE (toBytesLE w n) = n := by
  induction w with
  | zero =>
    intro n h
    have hn : n = 0 := Nat.lt_one_iff.mp (by simpa using h)
    subst hn; rfl
  | succ w ih =>
    intro n h
    have hdiv : n / 256 < 256 ^ w := by
      apply (Nat.div_lt_iff_lt_mul (by norm_num)).mpr
      rw [← pow_succ]
      exact h
    simp [toBytesLE, fromBytesLE, ih _ hdiv, Nat.mod_add_div]

/-- Big-endian decoding inverts encoding for in-range values. -/
theorem fromBytesBE_toBytesBE (w n : Nat) (h : n < 256 ^ w) :
    fromBytesBE (toBytesBE w n) = n := by
  simp [fromBytesBE, toBytesBE, fromBytesLE_toBytesLE w n h]

/-- Reading exactly the bytes of a leading block returns the block and the
remainder of the stream. -/
theorem readBytes_append (w : Nat) (l rest : List Nat) (h : l.length = w) :
    readBytes w (l ++ rest) = some (l, rest) := by
  subst h
  simp [readBytes, List.take_left, List.drop_left]

/-- Reading a whole stream of the requested length consumes it. -/
theorem readBytes_exact (w : Nat) (l : List Nat) (h : l.length = w) :
    readBytes w l = some (l, []) := by
  subst h
  simp [readBytes]

/-- Reading back a serialized boolean. -/
theorem readBool_serializeBool (b : Bool) (rest : List Nat) :
    readBool (serializeBool b ++ rest) = some (b, rest) := by
  cases b <;> rfl

/-- Coin parsing inverts coin serialization on valid coins, leaving the
rest of the stream. -/
theorem deserializeCoin_serializeCoin (c : Coin) (rest : List Nat)
    (h : ValidCoin c) : deserializeCoin (serializeCoin c ++ rest) = some (c, rest) := by
  obtain ⟨p, q, a⟩ := c
  obtain ⟨⟨hp, _⟩, ⟨hq, _⟩, ha⟩ := h
  simp only [serializeCoin, List.append_assoc]
  simp [deserializeCoin, readBytes_append, hp, hq, length_toBytesBE]
  exact fromBytesBE_toBytesBE 8 a ha

/-- Linear scan misses a key exactly when the key is not in the list. -/
theorem lookupLineage_eq_none_iff (l : List (List Nat × Option LineageProof))
    (k : List Nat) : lookupLineage l k = none ↔ k ∉ l.map Prod.fst := by
  induction l with
  | nil => simp [lookupLineage]
  | cons p rest ih =>
    obtain ⟨a, b⟩ := p
    by_cases hak : a = k
    · subst hak
      simp [lookupLineage]
    · simp [lookupLineage, hak, ih, Ne.symm hak]

/-- With duplicate-free keys, linear scan finds exactly the stored value
of every entry. -/
theorem lookupLineage_nodup_mem (l : List (List Nat × Option LineageProof))
    (hnd : (l.map Prod.fst).Nodup) (k : List Nat) (v : Option LineageProof)
    (hm : (k, v) ∈ l) : lookupLineage l k = some v := by
  induction l with
  | nil => cases hm
  | cons p rest ih =>
    obtain ⟨a, b⟩ := p
    rw [List.map_cons, List.nodup_cons] at hnd
    obtain ⟨ha, hnd2⟩ := hnd
    rcases List.mem_cons.mp hm with heq | hmem
    · injection heq with h1 h2
      subst h1; subst h2
      simp [lookupLineage]
    · have hk : ¬a = k := by
        intro h
        subst h
        have h2 := List.mem_map_of_mem Prod.fst hmem
        exact ha (by simpa using h2)
      simp [lookupLineage, hk, ih hnd2 hmem]

/-- C1: the claim that every constructible CoinRecord satisfies the
spent-after-confirmed invariant fails: the constructor validates nothing,
so a record with spent_block_index = 1 below confirmed_block_index = 100
is constructible. -/
theorem C1_counterexample : ¬CoinRecordInvariant badRecord := by
  intro h
  exact absurd (h (by decide)) (by decide)

/-- C1 (amended): the CoinRecord type does not establish the invariant at
construction, but every operation on a record (the accessors spent, name,
coin_state) leaves the record unchanged, so any record satisfying the
invariant still satisfies it after the operations run. -/
theorem C1_theorem (r : CoinRecord) (h : CoinRecordInvariant r) :
    CoinRecordInvariant (coinRecordAfterAccessors r) := h

/-- C1 witness: the amended statement at a concrete invariant-satisfying
record. -/
theorem C1_witness : CoinRecordInvariant (coinRecordAfterAccessors goodRecord) :=
  C1_theorem goodRecord (fun _ => by decide)

/-- C2: coin_state is the triple of the coin, the spent height (present
with value spent_block_index exactly when the record is spent) and the
confirmed height (absent exactly when confirmed_block_index and timestamp
are both zero, otherwise confirmed_block_index). -/
theorem C2_theorem (r : CoinRecord) :
    r.coin_state.coin = r.coin ∧
    r.coin_state.spent_height.isSome = r.spent ∧
    (r.spent = true → r.coin_state.spent_height = some r.spent_block_index) ∧
    (r.coin_state.created_height = none ↔
      (r.confirmed_block_index = 0 ∧ r.timestamp = 0)) ∧
    (∀ hgt : Nat, r.coin_state.created_height = some hgt →
      hgt = r.confirmed_block_index) := by
  unfold CoinRecord.coin_state
  by_cases hs : r.spent <;>
    by_cases hc : r.confirmed_block_index = 0 ∧ r.timestamp = 0 <;>
      simp [hs, hc]

/-- C3: the derived property spent is true exactly when spent_block_index
is positive, and false exactly when it is zero. -/
theorem C3_theorem (r : CoinRecord) :
    (r.spent = true ↔ 0 < r.spent_block_index) ∧
    (r.spent = false ↔ r.spent_block_index = 0) := by
  unfold CoinRecord.spent
  constructor <;> simp

/-- C4: with its collaborators pure deterministic functions as the spec
requires, cost_of_spend_bundle is replay-deterministic: evaluating it on
the same spend bundle (the same generator program and solutions) always
yields the identical integer cost. -/
theorem C4_theorem (gen : SpendBundle → BlockGenerator)
    (npc : BlockGenerator → Nat → Nat → Bool → NPCResult)
    (calcProg : Program → NPCResult → Nat → Int)
    (ic cpb : Nat) (sb1 sb2 : SpendBundle) (h : sb1 = sb2) :
    cost_of_spend_bundle gen npc calcProg ic cpb sb1 =
      cost_of_spend_bundle gen npc calcProg ic cpb sb2 := by
  rw [h]

/-- C4 witness: two evaluations on the concrete empty bundle agree. -/
theorem C4_witness :
    cost_of_spend_bundle gen0 npc0 calc0 0 0 sb0 =
      cost_of_spend_bundle gen0 npc0 calc0 0 0 sb0 :=
  C4_theorem gen0 npc0 calc0 0 0 sb0 sb0 rfl

/-- C5: the claim that every CATInfo's lineage_proofs has each coin name
at most once fails: lineage_proofs is a plain list of pairs and the
constructor accepts a duplicate key, whose second entry linear scan then
shadows. -/
theorem C5_counterexample :
    ¬(dupCATInfo.lineage_proofs.map Prod.fst).Nodup ∧
    lookupLineage dupCATInfo.lineage_proofs (List.replicate 32 7) = some none ∧
    (List.replicate 32 7, some lp0) ∈ dupCATInfo.lineage_proofs := by
  refine ⟨by decide, by decide, by decide⟩

/-- C5 (amended): lineage_proofs is a linear list of (coin name, optional
LineageProof) pairs that may contain duplicate keys; when its keys are
duplicate-free, linear scan by coin name is a well-defined mapping with
absent-vs-present semantics: every stored entry is found with its stored
value, and lookup misses exactly the names that are not keys. -/
theorem C5_theorem (info : CATInfo)
    (hnd : (info.lineage_proofs.map Prod.fst).Nodup) :
    (∀ k v, (k, v) ∈ info.lineage_proofs →
      lookupLineage info.lineage_proofs k = some v) ∧
    (∀ k, lookupLineage info.lineage_proofs k = none ↔
      k ∉ info.lineage_proofs.map Prod.fst) := by
  constructor
  · intro k v hm
    exact lookupLineage_nodup_mem info.lineage_proofs hnd k v hm
  · intro k
    exact lookupLineage_eq_none_iff info.lineage_proofs k

/-- C5 witness: the amended statement at a concrete duplicate-free
CATInfo. -/
theorem C5_witness :
    lookupLineage okCATInfo.lineage_proofs (List.replicate 32 7) =
      some (some lp0) :=
  (C5_theorem okCATInfo (by decide)).1 (List.replicate 32 7) (some lp0) (by decide)

/-- C6: the unit table maps the primary unit to exactly 10^8 base units
and the coloured-coin unit to exactly 10^5, and converting 2.5 primary
units gives exactly 250,000,000 base units, with exact division in
integer arithmetic. -/
theorem C6_theorem :
    lookupUnit units "chives" = some 100000000 ∧
    lookupUnit units "colouredcoin" = some 100000 ∧
    lookupUnit units "mojo" = some 1 ∧
    (∃ u : Nat, lookupUnit units "chives" = some u ∧
      ((5 : ℚ) / 2) * (u : ℚ) = 250000000 ∧
      5 * u / 2 = 250000000 ∧ 5 * u % 2 = 0) := by
  refine ⟨rfl, rfl, rfl, 100000000, rfl, by norm_num, by norm_num, by norm_num⟩

/-- C7: the CoinRecord wire format is the coin, the two heights as 32-bit
fields, the coinbase boolean as one byte and the 64-bit timestamp — 89
bytes in all — and deserializing the serialization of any in-range record
gives back the record. -/
theorem C7_theorem (r : CoinRecord) (h : ValidCoinRecord r) :
    (serializeCoinRecord r).length = 89 ∧
    deserializeCoinRecord (serializeCoinRecord r) = some r := by
  obtain ⟨c, ci, si, cb, ts⟩ := r
  obtain ⟨hc, hci, hsi, hts⟩ := h
  constructor
  · obtain ⟨⟨hp, _⟩, ⟨hq, _⟩, _⟩ := hc
    simp [serializeCoinRecord, serializeCoin, serializeBool,
      length_toBytesBE, hp, hq]
  · simp only [serializeCoinRecord, List.append_assoc]
    simp [deserializeCoinRecord, deserializeCoin_serializeCoin _ _ hc,
      readBytes_append, length_toBytesBE, readBool_serializeBool,
      readBytes_exact]
    exact ⟨fromBytesBE_toBytesBE 4 ci hci, fromBytesBE_toBytesBE 4 si hsi,
      fromBytesBE_toBytesBE 8 ts hts⟩

/-- C7 witness: round-trip of a concrete valid record. -/
theorem C7_witness :
    (serializeCoinRecord r0).length = 89 ∧
    deserializeCoinRecord (serializeCoinRecord r0) = some r0 :=
  C7_theorem r0 (by decide)

/-- C8: the accessors are total pure functions: each returns a value on
every record, and running all of them leaves every field of the record
unchanged. -/
theorem C8_theorem (r : CoinRecord) :
    coinRecordAfterAccessors r = r ∧
    (∃ b, r.spent = b) ∧ (∃ nm, r.name = nm) ∧ (∃ st, r.coin_state = st) :=
  ⟨rfl, ⟨r.spent, rfl⟩, ⟨r.name, rfl⟩, ⟨r.coin_state, rfl⟩⟩

/-- C9: the worked example: with nonzero timestamp, the record confirmed
at 100 and unspent has spent = false and coin_state (coin, absent, 100);
the same record spent at 150 has spent = true and coin_state
(coin, 150, 100). -/
theorem C9_theorem (c : Coin) (T : Nat) (hT : T ≠ 0) :
    (CoinRecord.mk c 100 0 false T).spent = false ∧
    (CoinRecord.mk c 100 0 false T).coin_state = ⟨c, none, some 100⟩ ∧
    (CoinRecord.mk c 100 150 false T).spent = true ∧
    (CoinRecord.mk c 100 150 false T).coin_state = ⟨c, some 150, some 100⟩ := by
  refine ⟨rfl, ?_, rfl, ?_⟩ <;> simp [CoinRecord.coin_state, CoinRecord.spent]

/-- C9 witness: the example at a concrete coin and timestamp 1. -/
theorem C9_witness :
    (CoinRecord.mk coin0 100 0 false 1).spent = false ∧
    (CoinRecord.mk coin0 100 0 false 1).coin_state = ⟨coin0, none, some 100⟩ ∧
    (CoinRecord.mk coin0 100 150 false 1).spent = true ∧
    (CoinRecord.mk coin0 100 150 false 1).coin_state =
      ⟨coin0, some 150, some 100⟩ :=
  C9_theorem coin0 1 (by decide)

/-- C10: the sentinel's edge case: the confirmed height is reported
absent exactly when confirmed_block_index and timestamp are both zero; in
particular with confirmed_block_index = 0 but nonzero timestamp it is
reported present with value 0, and a nonzero confirmed_block_index is
always reported present. -/
theorem C10_theorem (r : CoinRecord) :
    (r.coin_state.created_height = none ↔
      (r.confirmed_block_index = 0 ∧ r.timestamp = 0)) ∧
    (r.confirmed_block_index = 0 → r.timestamp ≠ 0 →
      r.coin_state.created_height = some 0) ∧
    (r.confirmed_block_index ≠ 0 →
      r.coin_state.created_height = some r.confirmed_block_index) := by
  unfold CoinRecord.coin_state
  by_cases hc : r.confirmed_block_index = 0 ∧ r.timestamp = 0 <;>
    simp [hc] <;> tauto
